import Mathlib

/-!
Verification development for the IIOT repository.

The repository contains two Python scripts:

* `init.py` — a converter that reads a headerless batch-task CSV and writes
  one `TASK, ...` line per input row to `workflow.txt`.
* `analyze_results.py` — an analysis pipeline that loads CSV result files
  into named tables, computes grouped statistics, correlation data and a
  leaderboard, and emits chart/summary artifacts.

Both are shallowly embedded below.  Tables are lists of records, rational
numbers stand for the numeric cell values, and the per-step console output
is modelled as a list of diagnostic strings.  Fallible steps return
`Except String`.
-/

namespace IIOT

/-! ### Converter (`init.py`)

The script iterates over the rows of a headerless CSV with a running index
`idx`, reading column 8 (a CPU length, multiplied by 1000), and columns 5
and 6 (start and end timestamps, subtracted to form the deadline).  The
relevant columns are integers in the batch-task trace, so we model them
with `Int`. -/

/-- The three columns of a batch-task row that `init.py` actually reads
(`row[5]`, `row[6]`, `row[8]`). -/
structure BatchRow where
  c5 : Int
  c6 : Int
  c8 : Int
deriving Repr, DecidableEq

/-- The eight comma-separated fields of one output line:
`TASK`, the row index, `int(row[8]) * 1000`, the constant input size 10,
the constant output size 10, the constant PE count 1, the constant cost
0.1, and the deadline `row[6] - row[5]`. -/
def taskFields (idx : Nat) (r : BatchRow) : List String :=
  ["TASK", toString idx, toString (r.c8 * 1000), "10", "10", "1", "0.1",
    toString (r.c6 - r.c5)]

/-- One output line of the converter, exactly as the f-string
`"TASK, {task_id}, {length}, {input_size}, {output_size}, {pes}, {cost}, {deadline}"`
renders it. -/
def taskLine (idx : Nat) (r : BatchRow) : String :=
  String.intercalate ", " (taskFields idx r)

/-- The row loop of `init.py`, carrying the running row index. -/
def workflowFrom : Nat → List BatchRow → List String
  | _, [] => []
  | idx, r :: rs => taskLine idx r :: workflowFrom (idx + 1) rs

/-- All lines written to `workflow.txt`, starting at row index 0. -/
def workflowLines (rows : List BatchRow) : List String :=
  workflowFrom 0 rows

theorem workflowFrom_length (n : Nat) (rows : List BatchRow) :
    (workflowFrom n rows).length = rows.length := by
  induction rows generalizing n with
  | nil => rfl
  | cons r rs ih => simp [workflowFrom, ih]

theorem workflowFrom_getElem? (rows : List BatchRow) (n i : Nat) :
    (workflowFrom n rows)[i]? = (rows[i]?).map (taskLine (n + i)) := by
  induction rows generalizing n i with
  | nil => simp [workflowFrom]
  | cons r rs ih =>
    cases i with
    | zero => simp [workflowFrom]
    | succ j =>
      have h := ih (n + 1) j
      simpa [workflowFrom, Nat.add_assoc, Nat.add_comm 1 j] using h

/-- Claim C1: for every input table with N rows the converter emits exactly
N output lines; line i (0-indexed) is exactly
`TASK, <i>, <int(column8 of row i) * 1000>, 10, 10, 1, 0.1, <column6 - column5>`
with 8 comma-separated fields; in particular the input row with
column5 = 100, column6 = 220, column8 = 5 at index 0 produces the line
`TASK, 0, 5000, 10, 10, 1, 0.1, 120`. -/
theorem converter_line_format (rows : List BatchRow) (i : Nat) (r : BatchRow) :
    (workflowLines rows).length = rows.length ∧
    (workflowLines rows)[i]? = (rows[i]?).map (taskLine i) ∧
    taskLine i r = String.intercalate ", " (taskFields i r) ∧
    (taskFields i r).length = 8 ∧
    taskLine 0 ⟨100, 220, 5⟩ = "TASK, 0, 5000, 10, 10, 1, 0.1, 120" ∧
    taskFields 0 ⟨100, 220, 5⟩ =
      ["TASK", "0", "5000", "10", "10", "1", "0.1", "120"] := by
  refine ⟨workflowFrom_length 0 rows, ?_, rfl, rfl, ?_, ?_⟩
  · simpa using workflowFrom_getElem? rows 0 i
  · rfl
  · rfl

/-! ### Analyzer data model (`analyze_results.py`)

A loaded result table is a list of records with the column schema of
`comprehensive_results`.  Numeric cells are modelled by rationals.  The
mapping `self.results` is an association list from file stem to table. -/

/-- One record of the primary results table, with the columns the script
reads: `Algorithm`, `Scenario`, `TaskCount`, `NodeCount`, `TotalCost`,
`Makespan`, `DeadlineHitRate`, `ExecutionTime`, `EnergyConsumption`,
`FogUtilization`, `CloudUtilization`. -/
structure Row where
  algorithm : String
  scenario : String
  taskCount : ℚ
  nodeCount : ℚ
  totalCost : ℚ
  makespan : ℚ
  deadlineHitRate : ℚ
  executionTime : ℚ
  energyConsumption : ℚ
  fogUtilization : ℚ
  cloudUtilization : ℚ
deriving Repr, DecidableEq

/-- A loaded `ResultTable`. -/
abbrev Table := List Row

/-- The `self.results` mapping from file stem to loaded table, in load
order. -/
abbrev ResultsMap := List (String × Table)

/-- Lookup of `self.results[name]`; `none` models `name not in
self.results`. -/
def getTable (m : ResultsMap) (name : String) : Option Table :=
  m.lookup name

/-! #### Lexicographic string order

`groupby` sorts its group keys (`sort=True` is the pandas default); Python
compares strings lexicographically by code point.  The built-in `String`
order in Lean is defined through well-founded recursion, which the kernel
cannot evaluate, so we use an equivalent structural comparison on the
character lists. -/

/-- Lexicographic comparison of character lists by code point. -/
def lexLe : List Char → List Char → Bool
  | [], _ => true
  | _ :: _, [] => false
  | a :: as, b :: bs =>
    if a < b then true else if b < a then false else lexLe as bs

/-- Lexicographic comparison of strings, as Python compares `str` values. -/
def strLe (a b : String) : Bool :=
  lexLe a.data b.data

/-- The order relation underlying `strLe`. -/
def strLeR (a b : String) : Prop :=
  strLe a b = true

instance : DecidableRel strLeR := fun a b =>
  inferInstanceAs (Decidable (strLe a b = true))

theorem lexLe_refl (as : List Char) : lexLe as as = true := by
  induction as with
  | nil => rfl
  | cons a as ih => simp [lexLe, ih]

theorem lexLe_total (as bs : List Char) :
    lexLe as bs = true ∨ lexLe bs as = true := by
  induction as generalizing bs with
  | nil => exact Or.inl rfl
  | cons a as ih =>
    cases bs with
    | nil => exact Or.inr rfl
    | cons b bs =>
      rcases lt_trichotomy a b with h | h | h
      · exact Or.inl (by simp [lexLe, h])
      · subst h
        rcases ih bs with h' | h'
        · exact Or.inl (by simp [lexLe, h'])
        · exact Or.inr (by simp [lexLe, h'])
      · exact Or.inr (by simp [lexLe, h])

theorem lexLe_trans (as bs cs : List Char)
    (h1 : lexLe as bs = true) (h2 : lexLe bs cs = true) :
    lexLe as cs = true := by
  induction as generalizing bs cs with
  | nil => rfl
  | cons a as ih =>
    cases bs with
    | nil => simp [lexLe] at h1
    | cons b bs =>
      cases cs with
      | nil => simp [lexLe] at h2
      | cons c cs =>
        rcases lt_trichotomy a b with hab | hab | hab
        · rcases lt_trichotomy b c with hbc | hbc | hbc
          · simp [lexLe, lt_trans hab hbc]
          · subst hbc; simp [lexLe, hab]
          · simp [lexLe, hbc, not_lt_of_lt hbc] at h2
        · subst hab
          rcases lt_trichotomy a c with hac | hac | hac
          · simp [lexLe, hac]
          · subst hac
            simp only [lexLe, lt_irrefl, if_false, if_neg] at h1 h2 ⊢
            exact ih bs cs h1 h2
          · simp [lexLe, hac, not_lt_of_lt hac] at h2
        · simp [lexLe, hab, not_lt_of_lt hab] at h1

instance : IsTotal String strLeR :=
  ⟨fun a b => lexLe_total a.data b.data⟩

instance : IsTrans String strLeR :=
  ⟨fun a b c => lexLe_trans a.data b.data c.data⟩

instance : IsRefl String strLeR :=
  ⟨fun a => lexLe_refl a.data⟩

/-! #### Aggregation primitives -/

/-- The metric values of the group of rows whose `Algorithm` equals `k`
(the column selection after `df.groupby('Algorithm')`). -/
def groupVals (df : Table) (k : String) (f : Row → ℚ) : List ℚ :=
  (df.filter (fun r => r.algorithm == k)).map f

/-- Arithmetic mean of a list of values (pandas `mean`). -/
def meanQ (l : List ℚ) : ℚ :=
  l.sum / l.length

/-- Sum of squared deviations from the mean. -/
def sumSqDev (l : List ℚ) : ℚ :=
  (l.map (fun x => (x - meanQ l) * (x - meanQ l))).sum

/-- Sample variance with Bessel correction, divisor `n - 1` (the square of
pandas `std`, which uses `ddof=1`). -/
def sampleVarQ (l : List ℚ) : ℚ :=
  sumSqDev l / ((l.length : ℚ) - 1)

/-- Least element of a list of values (pandas `min`; groups are never
empty). -/
def minQ : List ℚ → ℚ
  | [] => 0
  | x :: xs => xs.foldl min x

/-- Greatest element of a list of values (pandas `max`). -/
def maxQ : List ℚ → ℚ
  | [] => 0
  | x :: xs => xs.foldl max x

/-- The sorted list of distinct `Algorithm` values: the group keys of
`df.groupby('Algorithm')`, which pandas sorts lexicographically. -/
def algKeys (df : Table) : List String :=
  List.insertionSort strLeR ((df.map Row.algorithm).dedup)

/-- The per-group means of one metric, in sorted group-key order: the
series `df.groupby('Algorithm')[metric].mean()`. -/
def groupMeans (df : Table) (f : Row → ℚ) : List (String × ℚ) :=
  (algKeys df).map (fun k => (k, meanQ (groupVals df k f)))

/-- First entry attaining the minimal value, as `Series.idxmin` returns
the first index label of the minimum. -/
def idxminP : List (String × ℚ) → Option (String × ℚ)
  | [] => none
  | p :: rest =>
    match idxminP rest with
    | none => some p
    | some q => if p.2 ≤ q.2 then some p else some q

/-- First entry attaining the maximal value, as `Series.idxmax` returns
the first index label of the maximum. -/
def idxmaxP : List (String × ℚ) → Option (String × ℚ)
  | [] => none
  | p :: rest =>
    match idxmaxP rest with
    | none => some p
    | some q => if q.2 ≤ p.2 then some p else some q

/-- The selection `df.groupby('Algorithm')[f].mean().idxmin()`. -/
def idxminGroups (df : Table) (f : Row → ℚ) : Option String :=
  (idxminP (groupMeans df f)).map Prod.fst

/-- The selection `df.groupby('Algorithm')[f].mean().idxmax()`. -/
def idxmaxGroups (df : Table) (f : Row → ℚ) : Option String :=
  (idxmaxP (groupMeans df f)).map Prod.fst

/-- Leaderboard entry `best_cost` (line 358 of `analyze_results.py`). -/
def best_cost (df : Table) : Option String :=
  idxminGroups df Row.totalCost

/-- Leaderboard entry `best_makespan` (line 359). -/
def best_makespan (df : Table) : Option String :=
  idxminGroups df Row.makespan

/-- Leaderboard entry `best_deadline` (line 360). -/
def best_deadline (df : Table) : Option String :=
  idxmaxGroups df Row.deadlineHitRate

/-- Leaderboard entry `best_time` (line 361). -/
def best_time (df : Table) : Option String :=
  idxminGroups df Row.executionTime

/-! #### Grouped statistical summary -/

/-- The four aggregates requested for each metric in
`df.groupby('Algorithm').agg(...)`: `mean`, `std`, `min`, `max`.  The table
cells are rational, so the (generally irrational) sample standard deviation
is tracked through its square `stdSq`: the `std` cell of the pandas frame
is the real square root of `stdSq`. -/
structure Stats4 where
  mean : ℚ
  stdSq : ℚ
  min : ℚ
  max : ℚ
deriving Repr, DecidableEq

/-- The aggregates of one group of values. -/
def statsOf (l : List ℚ) : Stats4 :=
  ⟨meanQ l, sampleVarQ l, minQ l, maxQ l⟩

/-- One row of the grouped summary frame, indexed by `Algorithm`. -/
structure SummaryRow where
  algorithm : String
  totalCost : Stats4
  makespan : Stats4
  deadlineHitRate : Stats4
  executionTime : Stats4
deriving Repr, DecidableEq

/-- The exact grouped summary
`df.groupby('Algorithm').agg({'TotalCost': ['mean','std','min','max'], ...})`
before the `.round(4)` call. -/
def summaryExact (df : Table) : List SummaryRow :=
  (algKeys df).map fun k =>
    ⟨k, statsOf (groupVals df k Row.totalCost),
      statsOf (groupVals df k Row.makespan),
      statsOf (groupVals df k Row.deadlineHitRate),
      statsOf (groupVals df k Row.executionTime)⟩

/-- Rounding to the nearest integer with ties to even, as numpy and pandas
round scalars (`.round` uses round-half-to-even). -/
def roundHalfEven {α : Type} [LinearOrderedField α] [FloorRing α]
    (x : α) : ℤ :=
  if Int.fract x < 1 / 2 then ⌊x⌋
  else if 1 / 2 < Int.fract x then ⌊x⌋ + 1
  else if Even ⌊x⌋ then ⌊x⌋ else ⌊x⌋ + 1

/-- Rounding to 4 decimal places, the `.round(4)` applied to every cell of
the summary frame before it is written and printed. -/
def round4 {α : Type} [LinearOrderedField α] [FloorRing α] (x : α) : α :=
  (roundHalfEven (x * 10000) : α) / 10000

/-- The rational-valued cells of one rounded metric block.  The `std` cell
of the persisted frame is `round4` applied to the real square root of
`stdSq` and is therefore not a rational function of the inputs; its
rounding is covered by the real-valued bound on `round4`. -/
structure Stats3 where
  mean : ℚ
  min : ℚ
  max : ℚ
deriving Repr, DecidableEq

/-- Rounding of one metric block. -/
def persistStats (s : Stats4) : Stats3 :=
  ⟨round4 s.mean, round4 s.min, round4 s.max⟩

/-- One row of the rounded summary frame, as written to
`statistical_summary.csv` and printed to the console. -/
structure PRow where
  algorithm : String
  totalCost : Stats3
  makespan : Stats3
  deadlineHitRate : Stats3
  executionTime : Stats3
deriving Repr, DecidableEq

/-- The summary frame the script persists and prints:
`df.groupby('Algorithm').agg(...).round(4)` (local variable
`summary_stats`). -/
def summary_stats (df : Table) : List PRow :=
  (summaryExact df).map fun r =>
    ⟨r.algorithm, persistStats r.totalCost, persistStats r.makespan,
      persistStats r.deadlineHitRate, persistStats r.executionTime⟩

/-- The statement that a metric block holds the standard statistics of a
group of values: the mean times the count gives back the sum, the squared
standard deviation times the Bessel divisor n - 1 gives back the sum of
squared deviations from the mean, and min and max are attained lower and
upper bounds of the group. -/
def IsStatsOf (s : Stats4) (vals : List ℚ) : Prop :=
  s.mean * vals.length = vals.sum ∧
  s.stdSq * ((vals.length : ℚ) - 1) =
    (vals.map (fun x => (x - s.mean) * (x - s.mean))).sum ∧
  s.min ∈ vals ∧ (∀ x ∈ vals, s.min ≤ x) ∧
  s.max ∈ vals ∧ (∀ x ∈ vals, x ≤ s.max)

/-! #### Average-performance bar chart -/

/-- The data of the `average_performance.png` bar chart: the heights are
`df.groupby('Algorithm')[['TotalCost','Makespan','DeadlineHitRate']].mean()`,
taken directly from the raw group means (local variable
`avg_performance`). -/
def avg_performance (df : Table) : List (String × ℚ × ℚ × ℚ) :=
  (algKeys df).map fun k =>
    (k, meanQ (groupVals df k Row.totalCost),
      meanQ (groupVals df k Row.makespan),
      meanQ (groupVals df k Row.deadlineHitRate))

/-- The y-axis label the script attaches to that chart (line 119). -/
def average_performance_ylabel : String := "Normalized Performance"

/-- The title the script attaches to that chart (line 120). -/
def average_performance_title : String :=
  "Average Algorithm Performance (Normalized)"

/-! #### Scalability subset -/

/-- The subset `df[df['Scenario'] == 'Scalability']`. -/
def scalability_df (df : Table) : Table :=
  df.filter (fun r => r.scenario == "Scalability")

/-! #### Correlation analysis -/

/-- The nine numeric columns selected for `df[numeric_cols].corr()`. -/
inductive NumCol
  | taskCount
  | nodeCount
  | totalCost
  | makespan
  | deadlineHitRate
  | executionTime
  | energyConsumption
  | fogUtilization
  | cloudUtilization
deriving Repr, DecidableEq

/-- The value of a numeric column in a record. -/
def colVal : NumCol → Row → ℚ
  | .taskCount => Row.taskCount
  | .nodeCount => Row.nodeCount
  | .totalCost => Row.totalCost
  | .makespan => Row.makespan
  | .deadlineHitRate => Row.deadlineHitRate
  | .executionTime => Row.executionTime
  | .energyConsumption => Row.energyConsumption
  | .fogUtilization => Row.fogUtilization
  | .cloudUtilization => Row.cloudUtilization

/-- One numeric column of the table. -/
def colList (df : Table) (c : NumCol) : List ℚ :=
  df.map (colVal c)

/-- The centred cross sum `Σ (x - mean x)(y - mean y)` of two columns; the
Pearson coefficient is `SS c1 c2 / sqrt (SS c1 c1 * SS c2 c2)`. -/
def SS (df : Table) (c1 c2 : NumCol) : ℚ :=
  (df.map fun r =>
    (colVal c1 r - meanQ (colList df c1)) *
      (colVal c2 r - meanQ (colList df c2))).sum

/-- One entry of `df[numeric_cols].corr()`.  A zero-variance column makes
the Pearson quotient 0/0, which pandas reports as NaN; `none` models that
NaN. -/
noncomputable def corrEntry (df : Table) (c1 c2 : NumCol) : Option ℝ :=
  if SS df c1 c1 = 0 ∨ SS df c2 c2 = 0 then none
  else some ((SS df c1 c2 : ℝ) /
    Real.sqrt ((SS df c1 c1 : ℝ) * (SS df c2 c2 : ℝ)))

/-! #### Report steps, driver and loader

Each plotting method is modelled as a function from the loaded mapping to
its console diagnostics and the artifacts it writes; `Except` carries a
possible uncaught exception.  Every method prints its header diagnostic
first and then returns early when `comprehensive_results` is absent. -/

/-- Data behind a written artifact: the table a chart was rendered from, or
the rounded summary frame written as CSV. -/
inductive ArtifactData
  | png (source : Table)
  | csv (rows : List PRow)
deriving Repr, DecidableEq

/-- A file written to the output directory. -/
structure Artifact where
  name : String
  data : ArtifactData
deriving Repr, DecidableEq

/-- Console diagnostics and written artifacts of one step. -/
structure StepOut where
  diags : List String
  artifacts : List Artifact
deriving Repr, DecidableEq

/-- Step `plot_algorithm_comparison`: box plots per metric and the
average-performance bar chart, both rendered from the primary table. -/
def plot_algorithm_comparison (m : ResultsMap) : Except String StepOut :=
  match getTable m "comprehensive_results" with
  | none => .ok ⟨["Creating algorithm comparison plots"], []⟩
  | some df => .ok ⟨["Creating algorithm comparison plots"],
      [⟨"algorithm_comparison.png", .png df⟩,
        ⟨"average_performance.png", .png df⟩]⟩

/-- Step `plot_scenario_analysis`. -/
def plot_scenario_analysis (m : ResultsMap) : Except String StepOut :=
  match getTable m "comprehensive_results" with
  | none => .ok ⟨["Creating scenario analysis plots"], []⟩
  | some df => .ok ⟨["Creating scenario analysis plots"],
      [⟨"scenario_analysis.png", .png df⟩]⟩

/-- Step `plot_scalability_analysis`: restricted to the rows with
`Scenario == 'Scalability'`; skipped with a warning when that subset is
empty. -/
def plot_scalability_analysis (m : ResultsMap) : Except String StepOut :=
  match getTable m "comprehensive_results" with
  | none => .ok ⟨["Creating scalability analysis plots"], []⟩
  | some df =>
    if scalability_df df = [] then
      .ok ⟨["Creating scalability analysis plots",
        "No scalability data found"], []⟩
    else
      .ok ⟨["Creating scalability analysis plots"],
        [⟨"scalability_analysis.png", .png (scalability_df df)⟩]⟩

/-- Step `plot_correlation_analysis`: the correlation heatmap, plus the scatter
matrix when the key-metric frame is nonempty (the model has no missing
values, so `dropna` is the identity). -/
def plot_correlation_analysis (m : ResultsMap) : Except String StepOut :=
  match getTable m "comprehensive_results" with
  | none => .ok ⟨["Creating correlation analysis plots"], []⟩
  | some df => .ok ⟨["Creating correlation analysis plots"],
      ⟨"correlation_matrix.png", .png df⟩ ::
        (if df = [] then [] else [⟨"scatter_matrix.png", .png df⟩])⟩

/-- Step `plot_performance_heatmaps`. -/
def plot_performance_heatmaps (m : ResultsMap) : Except String StepOut :=
  match getTable m "comprehensive_results" with
  | none => .ok ⟨["Creating performance heatmaps"], []⟩
  | some df => .ok ⟨["Creating performance heatmaps"],
      [⟨"performance_heatmaps.png", .png df⟩]⟩

/-- Step `generate_statistical_summary`: writes the rounded summary frame to
`statistical_summary.csv`, renders the summary box plots, prints the
rounded frame and prints the four leaderboard lines computed from the raw
table. -/
def generate_statistical_summary (m : ResultsMap) : Except String StepOut :=
  match getTable m "comprehensive_results" with
  | none => .ok ⟨["Generating statistical summary"], []⟩
  | some df => .ok
      ⟨["Generating statistical summary",
        "Statistical summary saved",
        "STATISTICAL SUMMARY " ++ reprStr (summary_stats df),
        "Lowest Cost: " ++ (best_cost df).getD "",
        "Lowest Makespan: " ++ (best_makespan df).getD "",
        "Highest Deadline Hit Rate: " ++ (best_deadline df).getD "",
        "Fastest Execution: " ++ (best_time df).getD ""],
      [⟨"statistical_summary.csv", .csv (summary_stats df)⟩,
        ⟨"statistical_summary.png", .png df⟩]⟩

/-- Driver `create_comprehensive_analysis`: returns early when no table was
loaded, otherwise runs the six report steps in order and reports
completion. -/
def create_comprehensive_analysis (m : ResultsMap) : Except String StepOut :=
  if m.isEmpty then .ok ⟨["No data to analyze"], []⟩
  else do
    let s1 ← plot_algorithm_comparison m
    let s2 ← plot_scenario_analysis m
    let s3 ← plot_scalability_analysis m
    let s4 ← plot_correlation_analysis m
    let s5 ← plot_performance_heatmaps m
    let s6 ← generate_statistical_summary m
    pure ⟨"Creating comprehensive analysis" ::
        (s1.diags ++ s2.diags ++ s3.diags ++ s4.diags ++ s5.diags ++
          s6.diags ++ ["Analysis completed"]),
      s1.artifacts ++ s2.artifacts ++ s3.artifacts ++ s4.artifacts ++
        s5.artifacts ++ s6.artifacts⟩

/-- One file found by `glob("*.csv")`: its stem (base name without
extension) and the outcome of `pd.read_csv` on it. -/
structure InputFile where
  stem : String
  parsed : Except String Table

/-- The mapping built by the load loop: each successfully parsed file is
stored under its stem, in iteration order; failed files are skipped. -/
def load_entries : List InputFile → ResultsMap
  | [] => []
  | f :: fs =>
    match f.parsed with
    | .ok df => (f.stem, df) :: load_entries fs
    | .error _ => load_entries fs

/-- The per-file diagnostics of the load loop. -/
def load_diags : List InputFile → List String
  | [] => []
  | f :: fs =>
    (match f.parsed with
      | .ok df =>
        "Loaded " ++ f.stem ++ ": " ++ toString df.length ++ " records"
      | .error e => "Error loading " ++ f.stem ++ ": " ++ e) ::
      load_diags fs

/-- Loader `load_data`: reports when the directory holds no CSV files, otherwise
loads each file with a per-file `try`. -/
def load_data (files : List InputFile) : ResultsMap × List String :=
  (load_entries files,
    "Loading results data" ::
      if files.isEmpty then ["No CSV files found"] else load_diags files)

/-- Outcome of a whole run of the script. -/
structure RunOut where
  results : ResultsMap
  diags : List String
  artifacts : List Artifact
deriving Repr

/-- Entry point `main`: construct the analyzer (which loads the data), run the
comprehensive analysis, and report overall completion. -/
def mainRun (files : List InputFile) : Except String RunOut :=
  let lm := load_data files
  (create_comprehensive_analysis lm.1).map fun s =>
    ⟨lm.1,
      "IIoT Scheduler Results Analyzer" ::
        (lm.2 ++ s.diags ++ ["Analysis completed successfully"]),
      s.artifacts⟩

/-! #### Concrete example data

Small tables used to instantiate the theorems below on concrete inputs. -/

/-- A record of algorithm A in the Standard scenario. -/
def exRowStd : Row :=
  ⟨"A", "Standard", 1, 1, 4000, 100, 1, 10, 1, 1, 1⟩

/-- A second record of algorithm A with different metric values. -/
def exRowA2 : Row :=
  ⟨"A", "Standard", 1, 1, 6000, 300, 0, 30, 1, 1, 1⟩

/-- A record of algorithm B in the Standard scenario. -/
def exRowB : Row :=
  ⟨"B", "Standard", 1, 1, 6000, 300, 0, 30, 1, 1, 1⟩

/-- A record of algorithm A in the Scalability scenario. -/
def exRowScal : Row :=
  ⟨"A", "Scalability", 1, 1, 4000, 100, 1, 10, 1, 1, 1⟩

/-- A record of algorithm B whose metrics all equal those of
`exRowTieA`. -/
def exRowTieB : Row :=
  ⟨"B", "Standard", 1, 1, 1, 1, 1, 1, 1, 1, 1⟩

/-- A record of algorithm A whose metrics all equal those of
`exRowTieB`. -/
def exRowTieA : Row :=
  ⟨"A", "Standard", 1, 1, 1, 1, 1, 1, 1, 1, 1⟩

/-- A table whose first-encountered algorithm is B while A ties it on
every metric mean. -/
def exTieTable : Table := [exRowTieB, exRowTieA]

/-- A two-row table with a single group of size two: TotalCost values
4000 and 6000, Makespan 100 and 300, DeadlineHitRate 1 and 0,
ExecutionTime 10 and 30, constant FogUtilization. -/
def exStatTable : Table := [exRowStd, exRowA2]

/-- A two-algorithm table with one record per algorithm. -/
def exPerfTable : Table := [exRowStd, exRowB]

/-! ### Claim C3: a run over a directory with zero CSV files -/

/-- Claim C3: when the input directory contains zero tabular (CSV) files,
loading produces an empty table mapping and the whole run completes
without raising, reaching the analysis-completed diagnostic. -/
theorem empty_dir_run_completes :
    (load_data []).1 = [] ∧
    mainRun [] = .ok
      ⟨[],
        ["IIoT Scheduler Results Analyzer", "Loading results data",
          "No CSV files found", "No data to analyze",
          "Analysis completed successfully"],
        []⟩ := by
  exact ⟨rfl, rfl⟩

/-! ### Claim C4: every report no-ops when the primary table is absent -/

/-- Claim C4: for every state of the loaded-table mapping in which the
comprehensive_results table is absent, each of the six report operations
emits its diagnostic, produces no artifact and does not raise, and the
driver still runs all six and completes. -/
theorem missing_table_reports_noop (m : ResultsMap)
    (h : getTable m "comprehensive_results" = none) :
    plot_algorithm_comparison m =
      .ok ⟨["Creating algorithm comparison plots"], []⟩ ∧
    plot_scenario_analysis m =
      .ok ⟨["Creating scenario analysis plots"], []⟩ ∧
    plot_scalability_analysis m =
      .ok ⟨["Creating scalability analysis plots"], []⟩ ∧
    plot_correlation_analysis m =
      .ok ⟨["Creating correlation analysis plots"], []⟩ ∧
    plot_performance_heatmaps m =
      .ok ⟨["Creating performance heatmaps"], []⟩ ∧
    generate_statistical_summary m =
      .ok ⟨["Generating statistical summary"], []⟩ ∧
    (m ≠ [] →
      create_comprehensive_analysis m = .ok
        ⟨["Creating comprehensive analysis",
          "Creating algorithm comparison plots",
          "Creating scenario analysis plots",
          "Creating scalability analysis plots",
          "Creating correlation analysis plots",
          "Creating performance heatmaps",
          "Generating statistical summary",
          "Analysis completed"], []⟩) := by
  have h1 : plot_algorithm_comparison m =
      .ok ⟨["Creating algorithm comparison plots"], []⟩ := by
    simp [plot_algorithm_comparison, h]
  have h2 : plot_scenario_analysis m =
      .ok ⟨["Creating scenario analysis plots"], []⟩ := by
    simp [plot_scenario_analysis, h]
  have h3 : plot_scalability_analysis m =
      .ok ⟨["Creating scalability analysis plots"], []⟩ := by
    simp [plot_scalability_analysis, h]
  have h4 : plot_correlation_analysis m =
      .ok ⟨["Creating correlation analysis plots"], []⟩ := by
    simp [plot_correlation_analysis, h]
  have h5 : plot_performance_heatmaps m =
      .ok ⟨["Creating performance heatmaps"], []⟩ := by
    simp [plot_performance_heatmaps, h]
  have h6 : generate_statistical_summary m =
      .ok ⟨["Generating statistical summary"], []⟩ := by
    simp [generate_statistical_summary, h]
  refine ⟨h1, h2, h3, h4, h5, h6, fun hm => ?_⟩
  have hne : m.isEmpty = false := by
    cases m with
    | nil => exact absurd rfl hm
    | cons a l => rfl
  simp [create_comprehensive_analysis, hne, h1, h2, h3, h4, h5, h6,
    Bind.bind, Except.bind, Pure.pure, Except.pure]

/-- Witness for C4 at the concrete mapping holding one table that is not
comprehensive_results. -/
theorem missing_table_reports_noop_witness :
    getTable [("other_results", ([] : Table))] "comprehensive_results"
        = none ∧
    ([("other_results", ([] : Table))] : ResultsMap) ≠ [] ∧
    plot_algorithm_comparison [("other_results", [])] =
      .ok ⟨["Creating algorithm comparison plots"], []⟩ ∧
    create_comprehensive_analysis [("other_results", [])] = .ok
      ⟨["Creating comprehensive analysis",
        "Creating algorithm comparison plots",
        "Creating scenario analysis plots",
        "Creating scalability analysis plots",
        "Creating correlation analysis plots",
        "Creating performance heatmaps",
        "Generating statistical summary",
        "Analysis completed"], []⟩ :=
  ⟨rfl, by decide,
    (missing_table_reports_noop [("other_results", [])] rfl).1,
    (missing_table_reports_noop [("other_results", [])] rfl).2.2.2.2.2.2
      (by decide)⟩

/-! ### Claim C6: the scalability report guards on its scenario subset -/

/-- Claim C6: when the primary table has no row with Scenario equal to
Scalability, the scalability report emits its diagnostics, does not raise
and produces no artifact; when such rows exist, the report is rendered
from exactly the subset of rows whose Scenario is Scalability. -/
theorem scalability_guard (m : ResultsMap) (df : Table)
    (h : getTable m "comprehensive_results" = some df) :
    (scalability_df df = [] →
      plot_scalability_analysis m =
        .ok ⟨["Creating scalability analysis plots",
          "No scalability data found"], []⟩) ∧
    (scalability_df df ≠ [] →
      plot_scalability_analysis m =
        .ok ⟨["Creating scalability analysis plots"],
          [⟨"scalability_analysis.png", .png (scalability_df df)⟩]⟩) ∧
    (∀ r ∈ scalability_df df, r.scenario = "Scalability") := by
  refine ⟨fun he => ?_, fun hne => ?_, fun r hr => ?_⟩
  · simp [plot_scalability_analysis, h, he]
  · simp [plot_scalability_analysis, h, hne]
  · have hr' := List.mem_filter.mp hr
    simpa using hr'.2

/-- Witness for C6: a table without Scalability rows is skipped with the
warning, and a table with one Scalability row renders exactly that
subset. -/
theorem scalability_guard_witness :
    plot_scalability_analysis [("comprehensive_results", [exRowStd])] =
      .ok ⟨["Creating scalability analysis plots",
        "No scalability data found"], []⟩ ∧
    plot_scalability_analysis [("comprehensive_results", [exRowScal])] =
      .ok ⟨["Creating scalability analysis plots"],
        [⟨"scalability_analysis.png", .png [exRowScal]⟩]⟩ := by
  constructor
  · exact (scalability_guard [("comprehensive_results", [exRowStd])]
      [exRowStd] rfl).1 (by decide)
  · have h := (scalability_guard [("comprehensive_results", [exRowScal])]
      [exRowScal] rfl).2.1 (by decide)
    rwa [show scalability_df [exRowScal] = [exRowScal] from by decide] at h

/-! ### Claim C7: per-file loading and error isolation -/

theorem load_entries_lookup_none (files : List InputFile) (k : String)
    (hk : k ∉ files.map InputFile.stem) :
    (load_entries files).lookup k = none := by
  induction files with
  | nil => rfl
  | cons g gs ih =>
    simp only [List.map_cons, List.mem_cons, not_or] at hk
    cases hp : g.parsed with
    | ok df =>
      simp [load_entries, hp, List.lookup, beq_eq_false_iff_ne.mpr hk.1,
        ih hk.2]
    | error e => simpa [load_entries, hp] using ih hk.2

theorem load_entries_lookup_ok (files : List InputFile) (f : InputFile)
    (hnd : (files.map InputFile.stem).Nodup) (hf : f ∈ files)
    (df : Table) (hok : f.parsed = .ok df) :
    (load_entries files).lookup f.stem = some df := by
  induction files with
  | nil => cases hf
  | cons g gs ih =>
    simp only [List.map_cons, List.nodup_cons] at hnd
    rcases List.mem_cons.mp hf with rfl | hfs
    · simp [load_entries, hok, List.lookup]
    · have hne : f.stem ≠ g.stem := fun hcon => by
        exact hnd.1 (hcon ▸ List.mem_map_of_mem InputFile.stem hfs)
      cases hp : g.parsed with
      | ok dg =>
        simp [load_entries, hp, List.lookup, beq_eq_false_iff_ne.mpr hne,
          ih hnd.2 hfs]
      | error e => simpa [load_entries, hp] using ih hnd.2 hfs

theorem load_entries_lookup_error (files : List InputFile) (f : InputFile)
    (hnd : (files.map InputFile.stem).Nodup) (hf : f ∈ files)
    (e : String) (herr : f.parsed = .error e) :
    (load_entries files).lookup f.stem = none := by
  induction files with
  | nil => cases hf
  | cons g gs ih =>
    simp only [List.map_cons, List.nodup_cons] at hnd
    rcases List.mem_cons.mp hf with rfl | hfs
    · simpa [load_entries, herr] using load_entries_lookup_none gs f.stem hnd.1
    · have hne : f.stem ≠ g.stem := fun hcon => by
        exact hnd.1 (hcon ▸ List.mem_map_of_mem InputFile.stem hfs)
      cases hp : g.parsed with
      | ok dg =>
        simp [load_entries, hp, List.lookup, beq_eq_false_iff_ne.mpr hne,
          ih hnd.2 hfs]
      | error e' => simpa [load_entries, hp] using ih hnd.2 hfs

theorem load_diags_mem (files : List InputFile) (f : InputFile)
    (hf : f ∈ files) :
    (match f.parsed with
      | .ok df =>
        "Loaded " ++ f.stem ++ ": " ++ toString df.length ++ " records"
      | .error e => "Error loading " ++ f.stem ++ ": " ++ e) ∈
      load_diags files := by
  induction files with
  | nil => cases hf
  | cons g gs ih =>
    rcases List.mem_cons.mp hf with rfl | hfs
    · exact List.mem_cons_self _ _
    · exact List.mem_cons_of_mem _ (ih hfs)

theorem load_entries_sub (files : List InputFile) (k : String) (df : Table)
    (h : (load_entries files).lookup k = some df) :
    ∃ g ∈ files, g.stem = k ∧ g.parsed = .ok df := by
  induction files with
  | nil => simp [load_entries] at h
  | cons g gs ih =>
    cases hp : g.parsed with
    | ok dg =>
      rw [load_entries, hp] at h
      by_cases hb : (k == g.stem) = true
      · refine ⟨g, List.mem_cons_self _ _, (eq_of_beq hb).symm, ?_⟩
        simp [List.lookup, hb] at h
        rw [hp, h]
      · simp [List.lookup, hb] at h
        obtain ⟨g', hg', hk, hok⟩ := ih h
        exact ⟨g', List.mem_cons_of_mem _ hg', hk, hok⟩
    | error e =>
      rw [load_entries, hp] at h
      obtain ⟨g', hg', hk, hok⟩ := ih h
      exact ⟨g', List.mem_cons_of_mem _ hg', hk, hok⟩

/-- Claim C7: a parse failure of one file is caught and reported with the
file name and error message and does not abort the rest of the load; the
failed file is absent from the mapping, every successfully parsed file is
present under its stem and reported with its record count, and every
mapping entry stems from a successfully parsed file. -/
theorem load_data_per_file (files : List InputFile) (f : InputFile)
    (hnd : (files.map InputFile.stem).Nodup) (hf : f ∈ files) :
    (∀ df, f.parsed = .ok df →
      ((load_data files).1.lookup f.stem = some df ∧
        ("Loaded " ++ f.stem ++ ": " ++ toString df.length ++ " records")
          ∈ load_diags files)) ∧
    (∀ e, f.parsed = .error e →
      ((load_data files).1.lookup f.stem = none ∧
        ("Error loading " ++ f.stem ++ ": " ++ e) ∈ load_diags files)) ∧
    (∀ k df, (load_data files).1.lookup k = some df →
      ∃ g ∈ files, g.stem = k ∧ g.parsed = .ok df) := by
  refine ⟨fun df hok => ⟨?_, ?_⟩, fun e herr => ⟨?_, ?_⟩, fun k df h =>
    load_entries_sub files k df h⟩
  · exact load_entries_lookup_ok files f hnd hf df hok
  · have h := load_diags_mem files f hf
    rwa [hok] at h
  · exact load_entries_lookup_error files f hnd hf e herr
  · have h := load_diags_mem files f hf
    rwa [herr] at h

/-- Witness for C7: one file parses, its sibling fails; the mapping holds
exactly the success and both per-file reports appear. -/
theorem load_data_per_file_witness :
    (load_data [⟨"comprehensive_results", .ok [exRowStd]⟩,
        ⟨"broken", .error "bad header"⟩]).1.lookup "comprehensive_results"
      = some [exRowStd] ∧
    ("Loaded comprehensive_results: 1 records" ∈
      load_diags [⟨"comprehensive_results", .ok [exRowStd]⟩,
        ⟨"broken", .error "bad header"⟩]) ∧
    (load_data [⟨"comprehensive_results", .ok [exRowStd]⟩,
        ⟨"broken", .error "bad header"⟩]).1.lookup "broken" = none ∧
    ("Error loading broken: bad header" ∈
      load_diags [⟨"comprehensive_results", .ok [exRowStd]⟩,
        ⟨"broken", .error "bad header"⟩]) := by
  have h1 := (load_data_per_file
    [⟨"comprehensive_results", .ok [exRowStd]⟩,
      ⟨"broken", .error "bad header"⟩]
    ⟨"comprehensive_results", .ok [exRowStd]⟩
    (by decide) (List.Mem.head _)).1 [exRowStd] rfl
  have h2 := (load_data_per_file
    [⟨"comprehensive_results", .ok [exRowStd]⟩,
      ⟨"broken", .error "bad header"⟩]
    ⟨"broken", .error "bad header"⟩
    (by decide) (List.Mem.tail _ (List.Mem.head _))).2.1 "bad header" rfl
  exact ⟨h1.1, h1.2, h2.1, h2.2⟩

/-! ### Claim C5: the average-performance bar chart is not normalized -/

/-- Claim C5 evaluation: on a concrete table the bar heights of
`average_performance.png` are the raw group means (for example a
TotalCost bar of height 4000), even though the chart is labelled
Normalized Performance — the code applies no normalization step to the
plotted means. -/
theorem average_performance_plots_raw_means :
    avg_performance exPerfTable =
      [("A", 4000, 100, 1), ("B", 6000, 300, 0)] ∧
    meanQ (groupVals exPerfTable "A" Row.totalCost) = 4000 ∧
    average_performance_ylabel = "Normalized Performance" ∧
    average_performance_title =
      "Average Algorithm Performance (Normalized)" := by
  have hk : algKeys exPerfTable = ["A", "B"] := by decide
  have f1 : exPerfTable.filter (fun r => r.algorithm == "A") = [exRowStd] :=
    by decide
  have f2 : exPerfTable.filter (fun r => r.algorithm == "B") = [exRowB] :=
    by decide
  refine ⟨?_, ?_, rfl, rfl⟩
  · simp only [avg_performance, hk, List.map_cons, List.map_nil,
      groupVals, f1, f2]
    norm_num [meanQ, exRowStd, exRowB]
  · simp only [groupVals, f1]
    norm_num [meanQ, exRowStd]

/-! ### Claim C2: the leaderboard selections -/

theorem idxminP_spec (l : List (String × ℚ))
    (hs : l.Pairwise (fun p q => strLeR p.1 q.1)) (hne : l ≠ []) :
    ∃ p, idxminP l = some p ∧ p ∈ l ∧ (∀ q ∈ l, p.2 ≤ q.2) ∧
      (∀ q ∈ l, q.2 = p.2 → strLeR p.1 q.1) := by
  induction l with
  | nil => exact absurd rfl hne
  | cons a rest ih =>
    rcases List.pairwise_cons.mp hs with ⟨ha, hrest⟩
    cases rest with
    | nil =>
      refine ⟨a, rfl, List.mem_cons_self _ _, ?_, ?_⟩
      · intro q hq
        rcases List.mem_singleton.mp hq with rfl
        exact le_refl _
      · intro q hq _
        rcases List.mem_singleton.mp hq with rfl
        exact lexLe_refl _
    | cons b bs =>
      obtain ⟨p', hp'eq, hp'mem, hp'min, hp'tie⟩ := ih hrest (by simp)
      have hstep : idxminP (a :: b :: bs)
          = match idxminP (b :: bs) with
            | none => some a
            | some q => if a.2 ≤ q.2 then some a else some q := rfl
      by_cases hle : a.2 ≤ p'.2
      · refine ⟨a, ?_, List.mem_cons_self _ _, ?_, ?_⟩
        · rw [hstep, hp'eq]
          simp [hle]
        · intro q hq
          rcases List.mem_cons.mp hq with rfl | hq'
          · exact le_refl _
          · exact le_trans hle (hp'min q hq')
        · intro q hq _
          rcases List.mem_cons.mp hq with rfl | hq'
          · exact lexLe_refl _
          · exact ha q hq'
      · have hlt : p'.2 < a.2 := not_le.mp hle
        refine ⟨p', ?_, List.mem_cons_of_mem _ hp'mem, ?_, ?_⟩
        · rw [hstep, hp'eq]
          simp [hle]
        · intro q hq
          rcases List.mem_cons.mp hq with rfl | hq'
          · exact le_of_lt hlt
          · exact hp'min q hq'
        · intro q hq hq2
          rcases List.mem_cons.mp hq with rfl | hq'
          · exact absurd hq2 (ne_of_gt hlt)
          · exact hp'tie q hq' hq2

theorem idxmaxP_spec (l : List (String × ℚ))
    (hs : l.Pairwise (fun p q => strLeR p.1 q.1)) (hne : l ≠ []) :
    ∃ p, idxmaxP l = some p ∧ p ∈ l ∧ (∀ q ∈ l, q.2 ≤ p.2) ∧
      (∀ q ∈ l, q.2 = p.2 → strLeR p.1 q.1) := by
  induction l with
  | nil => exact absurd rfl hne
  | cons a rest ih =>
    rcases List.pairwise_cons.mp hs with ⟨ha, hrest⟩
    cases rest with
    | nil =>
      refine ⟨a, rfl, List.mem_cons_self _ _, ?_, ?_⟩
      · intro q hq
        rcases List.mem_singleton.mp hq with rfl
        exact le_refl _
      · intro q hq _
        rcases List.mem_singleton.mp hq with rfl
        exact lexLe_refl _
    | cons b bs =>
      obtain ⟨p', hp'eq, hp'mem, hp'max, hp'tie⟩ := ih hrest (by simp)
      have hstep : idxmaxP (a :: b :: bs)
          = match idxmaxP (b :: bs) with
            | none => some a
            | some q => if q.2 ≤ a.2 then some a else some q := rfl
      by_cases hle : p'.2 ≤ a.2
      · refine ⟨a, ?_, List.mem_cons_self _ _, ?_, ?_⟩
        · rw [hstep, hp'eq]
          simp [hle]
        · intro q hq
          rcases List.mem_cons.mp hq with rfl | hq'
          · exact le_refl _
          · exact le_trans (hp'max q hq') hle
        · intro q hq _
          rcases List.mem_cons.mp hq with rfl | hq'
          · exact lexLe_refl _
          · exact ha q hq'
      · have hlt : a.2 < p'.2 := not_le.mp hle
        refine ⟨p', ?_, List.mem_cons_of_mem _ hp'mem, ?_, ?_⟩
        · rw [hstep, hp'eq]
          simp [hle]
        · intro q hq
          rcases List.mem_cons.mp hq with rfl | hq'
          · exact le_of_lt hlt
          · exact hp'max q hq'
        · intro q hq hq2
          rcases List.mem_cons.mp hq with rfl | hq'
          · exact absurd hq2 (ne_of_lt hlt)
          · exact hp'tie q hq' hq2

theorem algKeys_pairwise (df : Table) : (algKeys df).Pairwise strLeR :=
  List.sorted_insertionSort strLeR ((df.map Row.algorithm).dedup)

theorem algKeys_ne_nil (df : Table) (h : df ≠ []) : algKeys df ≠ [] := by
  intro hcon
  have hperm := List.perm_insertionSort strLeR ((df.map Row.algorithm).dedup)
  rw [show List.insertionSort strLeR ((df.map Row.algorithm).dedup)
      = algKeys df from rfl, hcon] at hperm
  have hd : (df.map Row.algorithm).dedup = [] := hperm.symm.eq_nil
  rw [List.dedup_eq_nil, List.map_eq_nil_iff] at hd
  exact h hd

theorem groupMeans_pairwise (df : Table) (f : Row → ℚ) :
    (groupMeans df f).Pairwise (fun p q => strLeR p.1 q.1) :=
  List.Pairwise.map _ (fun _ _ h => h) (algKeys_pairwise df)

theorem idxminGroups_spec (df : Table) (f : Row → ℚ) (h : df ≠ []) :
    ∃ k, idxminGroups df f = some k ∧ k ∈ algKeys df ∧
      (∀ k' ∈ algKeys df,
        meanQ (groupVals df k f) ≤ meanQ (groupVals df k' f)) ∧
      (∀ k' ∈ algKeys df,
        meanQ (groupVals df k' f) = meanQ (groupVals df k f) →
          strLeR k k') := by
  have hne : groupMeans df f ≠ [] := by
    simpa [groupMeans, List.map_eq_nil_iff] using algKeys_ne_nil df h
  obtain ⟨p, hpeq, hpmem, hpmin, hptie⟩ :=
    idxminP_spec _ (groupMeans_pairwise df f) hne
  obtain ⟨k, hk, rfl⟩ := List.mem_map.mp hpmem
  refine ⟨k, ?_, hk, ?_, ?_⟩
  · simp [idxminGroups, hpeq]
  · intro k' hk'
    exact hpmin _ (List.mem_map_of_mem _ hk')
  · intro k' hk' he
    exact hptie _ (List.mem_map_of_mem _ hk') he

theorem idxmaxGroups_spec (df : Table) (f : Row → ℚ) (h : df ≠ []) :
    ∃ k, idxmaxGroups df f = some k ∧ k ∈ algKeys df ∧
      (∀ k' ∈ algKeys df,
        meanQ (groupVals df k' f) ≤ meanQ (groupVals df k f)) ∧
      (∀ k' ∈ algKeys df,
        meanQ (groupVals df k' f) = meanQ (groupVals df k f) →
          strLeR k k') := by
  have hne : groupMeans df f ≠ [] := by
    simpa [groupMeans, List.map_eq_nil_iff] using algKeys_ne_nil df h
  obtain ⟨p, hpeq, hpmem, hpmax, hptie⟩ :=
    idxmaxP_spec _ (groupMeans_pairwise df f) hne
  obtain ⟨k, hk, rfl⟩ := List.mem_map.mp hpmem
  refine ⟨k, ?_, hk, ?_, ?_⟩
  · simp [idxmaxGroups, hpeq]
  · intro k' hk'
    exact hpmax _ (List.mem_map_of_mem _ hk')
  · intro k' hk' he
    exact hptie _ (List.mem_map_of_mem _ hk') he

/-- Claim C2 counterexample: in `exTieTable` the first-encountered
algorithm is B and the two groups tie on every metric mean, yet every
leaderboard selection returns A — pandas sorts the group keys before
`idxmin`/`idxmax`, so ties are broken lexicographically, not by the
table's natural row order as claimed. -/
theorem leaderboard_tie_counterexample :
    exTieTable.head?.map Row.algorithm = some "B" ∧
    meanQ (groupVals exTieTable "A" Row.totalCost) =
      meanQ (groupVals exTieTable "B" Row.totalCost) ∧
    best_cost exTieTable = some "A" ∧
    best_makespan exTieTable = some "A" ∧
    best_deadline exTieTable = some "A" ∧
    best_time exTieTable = some "A" ∧
    ("A" : String) ≠ "B" := by
  have hk : algKeys exTieTable = ["A", "B"] := by decide
  have gAc : groupVals exTieTable "A" Row.totalCost = [1] := by decide
  have gBc : groupVals exTieTable "B" Row.totalCost = [1] := by decide
  have gAm : groupVals exTieTable "A" Row.makespan = [1] := by decide
  have gBm : groupVals exTieTable "B" Row.makespan = [1] := by decide
  have gAd : groupVals exTieTable "A" Row.deadlineHitRate = [1] := by decide
  have gBd : groupVals exTieTable "B" Row.deadlineHitRate = [1] := by decide
  have gAt : groupVals exTieTable "A" Row.executionTime = [1] := by decide
  have gBt : groupVals exTieTable "B" Row.executionTime = [1] := by decide
  have hm1 : meanQ [(1 : ℚ)] = 1 := by norm_num [meanQ]
  have hgc : groupMeans exTieTable Row.totalCost = [("A", 1), ("B", 1)] := by
    simp [groupMeans, hk, gAc, gBc, hm1]
  have hgm : groupMeans exTieTable Row.makespan = [("A", 1), ("B", 1)] := by
    simp [groupMeans, hk, gAm, gBm, hm1]
  have hgd : groupMeans exTieTable Row.deadlineHitRate
      = [("A", 1), ("B", 1)] := by
    simp [groupMeans, hk, gAd, gBd, hm1]
  have hgt : groupMeans exTieTable Row.executionTime
      = [("A", 1), ("B", 1)] := by
    simp [groupMeans, hk, gAt, gBt, hm1]
  have hmin1 : idxminP [("A", (1 : ℚ)), ("B", 1)] = some ("A", 1) := by
    have hstep : idxminP [("A", (1 : ℚ)), ("B", 1)]
        = if (1 : ℚ) ≤ 1 then some ("A", (1 : ℚ)) else some ("B", 1) := rfl
    rw [hstep, if_pos (le_refl (1 : ℚ))]
  have hmax1 : idxmaxP [("A", (1 : ℚ)), ("B", 1)] = some ("A", 1) := by
    have hstep : idxmaxP [("A", (1 : ℚ)), ("B", 1)]
        = if (1 : ℚ) ≤ 1 then some ("A", (1 : ℚ)) else some ("B", 1) := rfl
    rw [hstep, if_pos (le_refl (1 : ℚ))]
  refine ⟨rfl, by rw [gAc, gBc], ?_, ?_, ?_, ?_, by decide⟩
  · rw [show best_cost exTieTable
      = (idxminP (groupMeans exTieTable Row.totalCost)).map Prod.fst
      from rfl, hgc, hmin1]
    rfl
  · rw [show best_makespan exTieTable
      = (idxminP (groupMeans exTieTable Row.makespan)).map Prod.fst
      from rfl, hgm, hmin1]
    rfl
  · rw [show best_deadline exTieTable
      = (idxmaxP (groupMeans exTieTable Row.deadlineHitRate)).map Prod.fst
      from rfl, hgd, hmax1]
    rfl
  · rw [show best_time exTieTable
      = (idxminP (groupMeans exTieTable Row.executionTime)).map Prod.fst
      from rfl, hgt, hmin1]
    rfl

/-- Claim C2 amended: for every non-empty primary table each leaderboard
selection returns an algorithm whose group mean is less than or equal to
(for the minimized metrics) or greater than or equal to (for
DeadlineHitRate) every other group mean; when several groups tie on the
extremal mean, the lexicographically least algorithm name is returned
(the first key of the sorted grouped index), not the first-encountered
group in row order. -/
theorem leaderboard_extremal (df : Table) (h : df ≠ []) :
    (∃ k, best_cost df = some k ∧ k ∈ algKeys df ∧
      (∀ k' ∈ algKeys df, meanQ (groupVals df k Row.totalCost) ≤
        meanQ (groupVals df k' Row.totalCost)) ∧
      (∀ k' ∈ algKeys df, meanQ (groupVals df k' Row.totalCost) =
        meanQ (groupVals df k Row.totalCost) → strLeR k k')) ∧
    (∃ k, best_makespan df = some k ∧ k ∈ algKeys df ∧
      (∀ k' ∈ algKeys df, meanQ (groupVals df k Row.makespan) ≤
        meanQ (groupVals df k' Row.makespan)) ∧
      (∀ k' ∈ algKeys df, meanQ (groupVals df k' Row.makespan) =
        meanQ (groupVals df k Row.makespan) → strLeR k k')) ∧
    (∃ k, best_deadline df = some k ∧ k ∈ algKeys df ∧
      (∀ k' ∈ algKeys df, meanQ (groupVals df k' Row.deadlineHitRate) ≤
        meanQ (groupVals df k Row.deadlineHitRate)) ∧
      (∀ k' ∈ algKeys df, meanQ (groupVals df k' Row.deadlineHitRate) =
        meanQ (groupVals df k Row.deadlineHitRate) → strLeR k k')) ∧
    (∃ k, best_time df = some k ∧ k ∈ algKeys df ∧
      (∀ k' ∈ algKeys df, meanQ (groupVals df k Row.executionTime) ≤
        meanQ (groupVals df k' Row.executionTime)) ∧
      (∀ k' ∈ algKeys df, meanQ (groupVals df k' Row.executionTime) =
        meanQ (groupVals df k Row.executionTime) → strLeR k k')) :=
  ⟨idxminGroups_spec df Row.totalCost h,
    idxminGroups_spec df Row.makespan h,
    idxmaxGroups_spec df Row.deadlineHitRate h,
    idxminGroups_spec df Row.executionTime h⟩

/-- Witness for the amended C2 at the concrete two-algorithm table. -/
theorem leaderboard_extremal_witness :
    exPerfTable ≠ [] ∧
    best_cost exPerfTable = some "A" ∧
    best_deadline exPerfTable = some "A" := by
  have h := leaderboard_extremal exPerfTable (by decide)
  have hk : algKeys exPerfTable = ["A", "B"] := by decide
  refine ⟨by decide, ?_, ?_⟩
  · obtain ⟨k, hbest, hkmem, hmin, -⟩ := h.1
    have gA : groupVals exPerfTable "A" Row.totalCost = [4000] := by decide
    have gB : groupVals exPerfTable "B" Row.totalCost = [6000] := by decide
    have hmA : meanQ [(4000 : ℚ)] = 4000 := by norm_num [meanQ]
    have hmB : meanQ [(6000 : ℚ)] = 6000 := by norm_num [meanQ]
    rcases List.mem_cons.mp (by rwa [hk] at hkmem : k ∈ ["A", "B"]) with
      rfl | hB
    · exact hbest
    · rcases List.mem_singleton.mp hB with rfl
      exfalso
      have hcon := hmin "A" (by rw [hk]; exact List.mem_cons_self _ _)
      rw [gA, gB, hmA, hmB] at hcon
      norm_num at hcon
  · obtain ⟨k, hbest, hkmem, hmax, -⟩ := h.2.2.1
    have gA : groupVals exPerfTable "A" Row.deadlineHitRate = [1] := by decide
    have gB : groupVals exPerfTable "B" Row.deadlineHitRate = [0] := by decide
    have hmA : meanQ [(1 : ℚ)] = 1 := by norm_num [meanQ]
    have hmB : meanQ [(0 : ℚ)] = 0 := by norm_num [meanQ]
    rcases List.mem_cons.mp (by rwa [hk] at hkmem : k ∈ ["A", "B"]) with
      rfl | hB
    · exact hbest
    · rcases List.mem_singleton.mp hB with rfl
      exfalso
      have hcon := hmax "A" (by rw [hk]; exact List.mem_cons_self _ _)
      rw [gA, gB, hmA, hmB] at hcon
      norm_num at hcon

/-! ### Claim C8: the grouped statistical summary -/

theorem foldl_min_mem (l : List ℚ) (a : ℚ) : l.foldl min a ∈ a :: l := by
  induction l generalizing a with
  | nil => simp
  | cons x xs ih =>
    simp only [List.foldl_cons]
    rcases List.mem_cons.mp (ih (min a x)) with he | hm
    · rcases min_choice a x with h' | h'
      · rw [he, h']
        exact List.mem_cons_self _ _
      · rw [he, h']
        exact List.mem_cons_of_mem _ (List.mem_cons_self _ _)
    · exact List.mem_cons_of_mem _ (List.mem_cons_of_mem _ hm)

theorem foldl_min_le (l : List ℚ) (a : ℚ) :
    l.foldl min a ≤ a ∧ ∀ x ∈ l, l.foldl min a ≤ x := by
  induction l generalizing a with
  | nil => simp
  | cons x xs ih =>
    obtain ⟨h1, h2⟩ := ih (min a x)
    simp only [List.foldl_cons]
    refine ⟨le_trans h1 (min_le_left _ _), fun y hy => ?_⟩
    rcases List.mem_cons.mp hy with rfl | hy'
    · exact le_trans h1 (min_le_right _ _)
    · exact h2 y hy'

theorem foldl_max_mem (l : List ℚ) (a : ℚ) : l.foldl max a ∈ a :: l := by
  induction l generalizing a with
  | nil => simp
  | cons x xs ih =>
    simp only [List.foldl_cons]
    rcases List.mem_cons.mp (ih (max a x)) with he | hm
    · rcases max_choice a x with h' | h'
      · rw [he, h']
        exact List.mem_cons_self _ _
      · rw [he, h']
        exact List.mem_cons_of_mem _ (List.mem_cons_self _ _)
    · exact List.mem_cons_of_mem _ (List.mem_cons_of_mem _ hm)

theorem foldl_le_max (l : List ℚ) (a : ℚ) :
    a ≤ l.foldl max a ∧ ∀ x ∈ l, x ≤ l.foldl max a := by
  induction l generalizing a with
  | nil => simp
  | cons x xs ih =>
    obtain ⟨h1, h2⟩ := ih (max a x)
    simp only [List.foldl_cons]
    refine ⟨le_trans (le_max_left _ _) h1, fun y hy => ?_⟩
    rcases List.mem_cons.mp hy with rfl | hy'
    · exact le_trans (le_max_right _ _) h1
    · exact h2 y hy'

theorem meanQ_mul (l : List ℚ) : meanQ l * l.length = l.sum := by
  cases l with
  | nil => simp [meanQ]
  | cons x xs =>
    have hn : ((x :: xs).length : ℚ) ≠ 0 := by
      simp [List.length_cons]
      positivity
    rw [meanQ, div_mul_cancel₀ _ hn]

theorem sampleVarQ_mul (l : List ℚ) :
    sampleVarQ l * ((l.length : ℚ) - 1) = sumSqDev l := by
  match l with
  | [] => simp [sampleVarQ, sumSqDev, meanQ]
  | [x] =>
    have h : sumSqDev [x] = 0 := by
      simp [sumSqDev, meanQ]
    simp [sampleVarQ, h]
  | x :: y :: xs =>
    have hn : ((x :: y :: xs).length : ℚ) - 1 ≠ 0 := by
      have h2 : (2 : ℚ) ≤ ((x :: y :: xs).length : ℚ) := by
        have : 2 ≤ (x :: y :: xs).length := by simp [List.length_cons]
        exact_mod_cast this
      linarith
    exact div_mul_cancel₀ _ hn

theorem statsOf_spec (l : List ℚ) (h : l ≠ []) :
    IsStatsOf (statsOf l) l := by
  refine ⟨meanQ_mul l, sampleVarQ_mul l, ?_, ?_, ?_, ?_⟩
  · match l, h with
    | x :: xs, _ => exact foldl_min_mem xs x
  · intro v hv
    match l, h with
    | x :: xs, _ =>
      rcases List.mem_cons.mp hv with rfl | hv'
      · exact (foldl_min_le xs v).1
      · exact (foldl_min_le xs x).2 v hv'
  · match l, h with
    | x :: xs, _ => exact foldl_max_mem xs x
  · intro v hv
    match l, h with
    | x :: xs, _ =>
      rcases List.mem_cons.mp hv with rfl | hv'
      · exact (foldl_le_max xs v).1
      · exact (foldl_le_max xs x).2 v hv'

theorem mem_algKeys_mem_map (df : Table) (k : String)
    (hk : k ∈ algKeys df) : k ∈ df.map Row.algorithm := by
  have h1 : k ∈ (df.map Row.algorithm).dedup :=
    (List.perm_insertionSort strLeR _).mem_iff.mp hk
  exact List.mem_dedup.mp h1

theorem groupVals_ne_nil (df : Table) (k : String) (f : Row → ℚ)
    (hk : k ∈ algKeys df) : groupVals df k f ≠ [] := by
  obtain ⟨r, hr, hrk⟩ := List.mem_map.mp (mem_algKeys_mem_map df k hk)
  intro hcon
  have hmem : r ∈ df.filter (fun r => r.algorithm == k) :=
    List.mem_filter.mpr ⟨hr, by simp [hrk]⟩
  rw [groupVals, List.map_eq_nil_iff] at hcon
  rw [hcon] at hmem
  cases hmem

/-- Claim C8: every row of the grouped summary carries, for each of the
four metrics TotalCost, Makespan, DeadlineHitRate and ExecutionTime,
exactly the group mean, the sample standard deviation with the Bessel
divisor n - 1 (tracked through its square), and the attained group min and
max; and the report step writes the rounded summary frame to the tabular
summary file statistical_summary.csv. -/
theorem summary_statistics_spec (df : Table) (s : SummaryRow)
    (hs : s ∈ summaryExact df) (m : ResultsMap)
    (hm : getTable m "comprehensive_results" = some df) :
    s.algorithm ∈ algKeys df ∧
    IsStatsOf s.totalCost (groupVals df s.algorithm Row.totalCost) ∧
    IsStatsOf s.makespan (groupVals df s.algorithm Row.makespan) ∧
    IsStatsOf s.deadlineHitRate
      (groupVals df s.algorithm Row.deadlineHitRate) ∧
    IsStatsOf s.executionTime
      (groupVals df s.algorithm Row.executionTime) ∧
    ∃ out, generate_statistical_summary m = .ok out ∧
      (⟨"statistical_summary.csv", .csv (summary_stats df)⟩ : Artifact)
        ∈ out.artifacts := by
  obtain ⟨k, hk, rfl⟩ := List.mem_map.mp hs
  refine ⟨hk,
    statsOf_spec _ (groupVals_ne_nil df k Row.totalCost hk),
    statsOf_spec _ (groupVals_ne_nil df k Row.makespan hk),
    statsOf_spec _ (groupVals_ne_nil df k Row.deadlineHitRate hk),
    statsOf_spec _ (groupVals_ne_nil df k Row.executionTime hk), ?_⟩
  refine ⟨_, by rw [generate_statistical_summary, hm], ?_⟩
  exact List.mem_cons_self _ _

/-- Witness for C8 at a one-group table with TotalCost values 4000 and
6000: the summary row exists and its TotalCost block evaluates to mean
5000, Bessel variance 2000000, min 4000, max 6000. -/
theorem summary_statistics_witness :
    (⟨"A", statsOf (groupVals exStatTable "A" Row.totalCost),
      statsOf (groupVals exStatTable "A" Row.makespan),
      statsOf (groupVals exStatTable "A" Row.deadlineHitRate),
      statsOf (groupVals exStatTable "A" Row.executionTime)⟩ : SummaryRow)
        ∈ summaryExact exStatTable ∧
    IsStatsOf (statsOf (groupVals exStatTable "A" Row.totalCost))
      (groupVals exStatTable "A" Row.totalCost) ∧
    statsOf (groupVals exStatTable "A" Row.totalCost) =
      ⟨5000, 2000000, 4000, 6000⟩ := by
  have hk : algKeys exStatTable = ["A"] := by decide
  have hgv : groupVals exStatTable "A" Row.totalCost = [4000, 6000] := by
    decide
  have hs : (⟨"A", statsOf (groupVals exStatTable "A" Row.totalCost),
      statsOf (groupVals exStatTable "A" Row.makespan),
      statsOf (groupVals exStatTable "A" Row.deadlineHitRate),
      statsOf (groupVals exStatTable "A" Row.executionTime)⟩ : SummaryRow)
        ∈ summaryExact exStatTable := by
    rw [summaryExact, hk]
    exact List.mem_cons_self _ _
  refine ⟨hs,
    (summary_statistics_spec exStatTable _ hs
      [("comprehensive_results", exStatTable)] rfl).2.1, ?_⟩
  rw [hgv]
  have hmean : meanQ [(4000 : ℚ), 6000] = 5000 := by norm_num [meanQ]
  have hvar : sampleVarQ [(4000 : ℚ), 6000] = 2000000 := by
    norm_num [sampleVarQ, sumSqDev, hmean]
  have hmin : minQ [(4000 : ℚ), 6000] = 4000 := by
    norm_num [minQ]
  have hmax : maxQ [(4000 : ℚ), 6000] = 6000 := by
    norm_num [maxQ]
  rw [statsOf, hmean, hvar, hmin, hmax]

/-! ### Claim C9: properties of the correlation matrix -/

theorem SS_comm (df : Table) (c1 c2 : NumCol) :
    SS df c1 c2 = SS df c2 c1 := by
  rw [SS, SS]
  congr 1
  exact List.map_congr_left fun r _ => mul_comm _ _

theorem SS_self_nonneg (df : Table) (c : NumCol) : 0 ≤ SS df c c := by
  rw [SS]
  apply List.sum_nonneg
  intro x hx
  obtain ⟨r, -, rfl⟩ := List.mem_map.mp hx
  exact mul_self_nonneg _

/-- Claim C9: for every table and pair of numeric columns the correlation
matrix entry is symmetric; the diagonal entry of a column with nonzero
variance equals exactly 1; and the entries of a zero-variance column are
the NaN marker rather than an error. -/
theorem correlation_matrix_spec (df : Table) (c1 c2 : NumCol) :
    corrEntry df c1 c2 = corrEntry df c2 c1 ∧
    (SS df c1 c1 ≠ 0 → corrEntry df c1 c1 = some 1) ∧
    (SS df c1 c1 = 0 →
      corrEntry df c1 c2 = none ∧ corrEntry df c2 c1 = none) := by
  refine ⟨?_, fun h => ?_, fun h => ⟨?_, ?_⟩⟩
  · rw [corrEntry, corrEntry, SS_comm df c1 c2]
    by_cases h1 : SS df c1 c1 = 0 <;> by_cases h2 : SS df c2 c2 = 0 <;>
      simp [h1, h2, mul_comm]
  · rw [corrEntry]
    have h0 : (0 : ℝ) ≤ (SS df c1 c1 : ℝ) := by
      exact_mod_cast SS_self_nonneg df c1
    have hne : (SS df c1 c1 : ℝ) ≠ 0 := by exact_mod_cast h
    simp only [h, or_self, if_false, if_neg (fun hcon : _ ∨ _ =>
      hcon.elim h h)]
    rw [Real.sqrt_mul_self h0, div_self hne]
  · simp [corrEntry, h]
  · simp [corrEntry, h]

/-- Witness for C9: on the concrete table, TotalCost has variance sum
2000000 and a unit diagonal entry, the constant FogUtilization column has
zero variance and NaN entries, and a concrete off-diagonal pair is
symmetric. -/
theorem correlation_matrix_witness :
    SS exStatTable NumCol.totalCost NumCol.totalCost = 2000000 ∧
    corrEntry exStatTable NumCol.totalCost NumCol.totalCost = some 1 ∧
    SS exStatTable NumCol.fogUtilization NumCol.fogUtilization = 0 ∧
    corrEntry exStatTable NumCol.fogUtilization NumCol.totalCost = none ∧
    corrEntry exStatTable NumCol.totalCost NumCol.makespan =
      corrEntry exStatTable NumCol.makespan NumCol.totalCost := by
  have hclc : colList exStatTable NumCol.totalCost = [4000, 6000] := by
    decide
  have hclf : colList exStatTable NumCol.fogUtilization = [1, 1] := by
    decide
  have hmc : meanQ [(4000 : ℚ), 6000] = 5000 := by norm_num [meanQ]
  have hmf : meanQ [(1 : ℚ), 1] = 1 := by norm_num [meanQ]
  have h1 : SS exStatTable NumCol.totalCost NumCol.totalCost = 2000000 := by
    rw [SS, hclc, hmc]
    norm_num [exStatTable, exRowStd, exRowA2, colVal]
  have h2 : SS exStatTable NumCol.fogUtilization NumCol.fogUtilization
      = 0 := by
    rw [SS, hclf, hmf]
    norm_num [exStatTable, exRowStd, exRowA2, colVal]
  refine ⟨h1, ?_, h2, ?_, ?_⟩
  · exact (correlation_matrix_spec exStatTable NumCol.totalCost
      NumCol.totalCost).2.1 (by rw [h1]; norm_num)
  · exact ((correlation_matrix_spec exStatTable NumCol.fogUtilization
      NumCol.totalCost).2.2 h2).1
  · exact (correlation_matrix_spec exStatTable NumCol.totalCost
      NumCol.makespan).1

/-! ### Claim C10: rounding of the persisted summary -/

theorem roundHalfEven_close {α : Type} [LinearOrderedField α] [FloorRing α]
    (x : α) : |(roundHalfEven x : α) - x| ≤ 1 / 2 := by
  have hf0 : (0 : α) ≤ Int.fract x := Int.fract_nonneg x
  have hf1 : Int.fract x < 1 := Int.fract_lt_one x
  have hfx : (⌊x⌋ : α) + Int.fract x = x := Int.floor_add_fract x
  have key1 : (⌊x⌋ : α) - x = -Int.fract x := by linarith
  have key2 : ((⌊x⌋ + 1 : ℤ) : α) - x = 1 - Int.fract x := by
    push_cast
    linarith
  rw [roundHalfEven]
  by_cases h1 : Int.fract x < 1 / 2
  · rw [if_pos h1, key1, abs_neg, abs_of_nonneg hf0]
    linarith
  · rw [if_neg h1]
    by_cases h2 : 1 / 2 < Int.fract x
    · rw [if_pos h2, key2, abs_of_nonneg (by linarith)]
      linarith
    · have heq : Int.fract x = 1 / 2 :=
        le_antisymm (not_lt.mp h2) (not_lt.mp h1)
      rw [if_neg h2]
      by_cases h3 : Even ⌊x⌋
      · rw [if_pos h3, key1, abs_neg, abs_of_nonneg hf0, heq]
      · rw [if_neg h3, key2, heq]
        rw [abs_of_nonneg (by norm_num)]
        norm_num

theorem round4_close {α : Type} [LinearOrderedField α] [FloorRing α]
    (x : α) : |round4 x - x| ≤ 1 / 20000 := by
  have h := roundHalfEven_close (x * 10000)
  rw [round4]
  have key : (roundHalfEven (x * 10000) : α) / 10000 - x
      = ((roundHalfEven (x * 10000) : α) - x * 10000) / 10000 := by
    ring
  rw [key, abs_div, abs_of_pos (by norm_num : (0 : α) < 10000)]
  calc |(roundHalfEven (x * 10000) : α) - x * 10000| / 10000
      ≤ (1 / 2) / 10000 := by
        exact (div_le_div_iff_of_pos_right (by norm_num : (0 : α) < 10000)).mpr h
    _ = 1 / 20000 := by norm_num

/-- Claim C10: the persisted (and console-printed) summary frame is the
exact grouped summary with round4 applied to every cell: each rational
cell (mean, min, max) equals round4 of the exact statistic and so differs
from it by at most 1/20000 = 5e-5, and the same bound holds for round4
over the reals, which covers the std cells (the real square roots of
stdSq).  The exact summary and the raw table are left unrounded. -/
theorem summary_rounding (df : Table) (r : SummaryRow)
    (hr : r ∈ summaryExact df) (x : ℝ) (q : ℚ) :
    (⟨r.algorithm, persistStats r.totalCost, persistStats r.makespan,
      persistStats r.deadlineHitRate, persistStats r.executionTime⟩ : PRow)
      ∈ summary_stats df ∧
    (persistStats r.totalCost).mean = round4 r.totalCost.mean ∧
    |(persistStats r.totalCost).mean - r.totalCost.mean| ≤ 1 / 20000 ∧
    |(persistStats r.totalCost).min - r.totalCost.min| ≤ 1 / 20000 ∧
    |(persistStats r.totalCost).max - r.totalCost.max| ≤ 1 / 20000 ∧
    |round4 q - q| ≤ 1 / 20000 ∧
    |round4 x - x| ≤ 1 / 20000 := by
  refine ⟨?_, rfl, ?_, ?_, ?_, round4_close q, round4_close x⟩
  · rw [summary_stats]
    exact List.mem_map_of_mem _ hr
  · exact round4_close r.totalCost.mean
  · exact round4_close r.totalCost.min
  · exact round4_close r.totalCost.max

/-- Witness for C10 at the concrete one-group table and the concrete
value 1/3. -/
theorem summary_rounding_witness :
    (⟨"A",
      persistStats (statsOf (groupVals exStatTable "A" Row.totalCost)),
      persistStats (statsOf (groupVals exStatTable "A" Row.makespan)),
      persistStats (statsOf (groupVals exStatTable "A" Row.deadlineHitRate)),
      persistStats (statsOf (groupVals exStatTable "A" Row.executionTime))⟩
      : PRow) ∈ summary_stats exStatTable ∧
    |round4 ((1 : ℚ) / 3) - 1 / 3| ≤ 1 / 20000 := by
  have hk : algKeys exStatTable = ["A"] := by decide
  have hs : (⟨"A", statsOf (groupVals exStatTable "A" Row.totalCost),
      statsOf (groupVals exStatTable "A" Row.makespan),
      statsOf (groupVals exStatTable "A" Row.deadlineHitRate),
      statsOf (groupVals exStatTable "A" Row.executionTime)⟩ : SummaryRow)
        ∈ summaryExact exStatTable := by
    rw [summaryExact, hk]
    exact List.mem_cons_self _ _
  have h := summary_rounding exStatTable _ hs (0 : ℝ) ((1 : ℚ) / 3)
  exact ⟨h.1, h.2.2.2.2.2.1⟩

end IIOT
